import Mathlib

/-!
Shallow embedding of the initia-vanity repository (DegenHouseDeFi/initia-vanity).

The embedded code is the mnemonic-capable generator variant of `pkg/vanity`
(the file shown as `src/unnamed/part_003`): it is the variant whose six-argument
`NewGenerator` the CLI entry point (`src/unnamed/part_002`) and the test suite
(`src/pkg/vanity/generator_test.go`) use.  Pure Go functions become Lean
functions; the shared mutable engine state becomes an explicit state record
with an atomic-action step relation; fallible Go code returns `Except`.

Calls into third-party libraries (`cosmos-sdk`, `go-bip39`, `btcec`) are not
code of this repository; they are modelled as an explicit record of
deterministic functions (`CryptoLib`), and fresh system randomness is made
explicit as an `Entropy` argument threaded to exactly the calls that consume
randomness in the Go code.
-/

namespace InitiaVanity

/-- One draw of fresh system randomness (`crypto/rand` behind
`bip39.NewEntropy` / `secp256k1.GenPrivKey`), made explicit. -/
abbrev Entropy := Nat

/-- Mirrors `Result` of pkg/vanity (part_003): address, hex private key, JSON
public key, plus the mnemonic fields, whose Go zero value is the empty string
when the generator is not in mnemonic mode. -/
structure Result where
  address : String
  privateKey : String
  publicKey : String
  mnemonic : String
  derivationPath : String
deriving DecidableEq, Repr

/-- Mirrors the configuration part of the `Generator` struct (part_003):
`pattern`, `position`, `caseSensitive`, `count`, `useMnemonic`, `mnemonic`,
exactly the arguments of `NewGenerator`.  The runtime part of the struct
(results, stats, channels, mutex) is the engine state `EngineState` below.
`count` is a Go `int`, modelled as `Int`. -/
structure Generator where
  pattern : String
  position : String
  caseSensitive : Bool
  count : Int
  useMnemonic : Bool
  mnemonic : String
deriving DecidableEq, Repr

/-- Go `strings.ToLower` on the rune sequence of the string (simple case
mapping; the addresses and patterns involved are ASCII, where Go's Unicode
mapping and `Char.toLower` agree). -/
def toLowerGo (s : String) : String := ⟨s.data.map Char.toLower⟩

/-- Go `strings.HasPrefix s pre` on rune sequences. -/
def hasPrefixGo (s pre : String) : Bool := pre.data.isPrefixOf s.data

/-- Go `strings.HasSuffix s suf` on rune sequences. -/
def hasSuffixGo (s suf : String) : Bool := suf.data.isSuffixOf s.data

/-- Go `strings.Contains s sub` on rune sequences: `sub` occurs contiguously
inside `s`. -/
def containsGo (s sub : String) : Bool := decide (sub.data <:+: s.data)

/-- The position dispatch of `isMatch` (part_003 lines 184-193): the `switch`
on `g.position` applied to an already case-normalised pattern and address. -/
def positionMatch (position pattern address : String) : Bool :=
  match position with
  | "start" => hasPrefixGo address ("init1" ++ pattern)
  | "end" => hasSuffixGo address pattern
  | "any" => containsGo address pattern
  | _ => false

/-- Mirrors `isMatch` (part_003 lines 177-194): when `caseSensitive` is
false, both the pattern and the address are lowercased before the position
dispatch. -/
def Generator.isMatch (g : Generator) (address : String) : Bool :=
  let pattern := if !g.caseSensitive then toLowerGo g.pattern else g.pattern
  let address := if !g.caseSensitive then toLowerGo address else address
  positionMatch g.position pattern address

/-- The third-party library surface the generator calls (go-bip39,
cosmos-sdk `hd`, `secp256k1`, `bech32`, and the encoders).  Every field is a
deterministic function, exactly as the real libraries are deterministic
functions of their arguments; the two calls that consume system randomness
(`bip39.NewEntropy`, `secp256k1.GenPrivKey`) take an explicit `Entropy`
argument.  Opaque byte-level values (entropy, seeds, keys, raw addresses)
are carried as `Nat`. -/
structure CryptoLib where
  newEntropy256 : Entropy → Except String Nat
  newMnemonic : Nat → Except String String
  isMnemonicValid : String → Bool
  newSeed : String → String → Nat
  computeMastersFromSeed : Nat → Nat × Nat
  derivePrivateKeyForPath : Nat → Nat → String → Except String Nat
  genPrivKey : Entropy → Nat
  pubKeyOf : Nat → Nat
  addressOf : Nat → Nat
  bech32ConvertAndEncode : String → Nat → Except String String
  privKeyBytesHex : Nat → String
  pubKeyJSON : Nat → Except String String

/-- The fixed BIP-44 derivation path literal of part_003 line 142,
`m/44'/118'/0'/0/0` (apostrophes written as the escape `\x27`). -/
def bip44Path : String := "m/44\x27/118\x27/0\x27/0/0"

/-- Mirrors `generateMnemonic` (part_003 lines 67-80): 256 bits of fresh
entropy turned into a mnemonic, each step's error wrapped with its message. -/
def generateMnemonic (lib : CryptoLib) (e : Entropy) : Except String String :=
  match lib.newEntropy256 e with
  | .error err => .error ("failed to generate entropy: " ++ err)
  | .ok entropy =>
    match lib.newMnemonic entropy with
    | .error err => .error ("failed to generate mnemonic: " ++ err)
    | .ok mnemonic => .ok mnemonic

/-- Mirrors `generateAddress` (part_003 lines 83-111): fresh random key,
derived public key and account address, bech32 encoding with the "init"
prefix, hex private key and JSON public key.  The Go receiver `g` is unused
in this function, so it is not a parameter here. -/
def generateAddress (lib : CryptoLib) (e : Entropy) :
    Except String (String × String × String) :=
  let privKey := lib.genPrivKey e
  let pubKey := lib.pubKeyOf privKey
  let addr := lib.addressOf pubKey
  match lib.bech32ConvertAndEncode "init" addr with
  | .error err => .error err
  | .ok address =>
    let privKeyHex := lib.privKeyBytesHex privKey
    match lib.pubKeyJSON pubKey with
    | .error err => .error err
    | .ok pubKeyStr => .ok (address, privKeyHex, pubKeyStr)

/-- Mirrors `generateAddressFromMnemonic` (part_003 lines 114-174): a
supplied mnemonic (`g.mnemonic ≠ ""`) must pass `bip39.IsMnemonicValid`,
otherwise the call fails with "invalid mnemonic provided"; with no supplied
mnemonic a fresh one is generated from entropy.  The seed (empty passphrase)
feeds master-key computation and derivation at the constant path
`bip44Path`; the result tuple is (address, privKeyHex, pubKeyJSON, mnemonic,
path). -/
def generateAddressFromMnemonic (g : Generator) (lib : CryptoLib) (e : Entropy) :
    Except String (String × String × String × String × String) :=
  let mnemonicE : Except String String :=
    if g.mnemonic ≠ "" then
      if lib.isMnemonicValid g.mnemonic then .ok g.mnemonic
      else .error "invalid mnemonic provided"
    else
      generateMnemonic lib e
  match mnemonicE with
  | .error err => .error err
  | .ok mnemonic =>
    let seed := lib.newSeed mnemonic ""
    let mc := lib.computeMastersFromSeed seed
    match lib.derivePrivateKeyForPath mc.1 mc.2 bip44Path with
    | .error err => .error ("failed to derive private key: " ++ err)
    | .ok derivedPrivKey =>
      let privKey := derivedPrivKey
      let pubKey := lib.pubKeyOf privKey
      let addr := lib.addressOf pubKey
      match lib.bech32ConvertAndEncode "init" addr with
      | .error err => .error err
      | .ok address =>
        let privKeyHex := lib.privKeyBytesHex privKey
        match lib.pubKeyJSON pubKey with
        | .error err => .error err
        | .ok pubKeyStr => .ok (address, privKeyHex, pubKeyStr, mnemonic, bip44Path)

/-- One derivation attempt of the worker (part_003 lines 245-268): dispatch
on `useMnemonic`, and package the successful tuple as a `Result`, filling
the mnemonic fields only in mnemonic mode (Go zero value `""` otherwise). -/
def deriveResult (g : Generator) (lib : CryptoLib) (e : Entropy) : Except String Result :=
  if g.useMnemonic then
    match generateAddressFromMnemonic g lib e with
    | .error err => .error err
    | .ok (address, privKey, pubKey, mnemonic, derivationPath) =>
      .ok { address := address, privateKey := privKey, publicKey := pubKey,
            mnemonic := mnemonic, derivationPath := derivationPath }
  else
    match generateAddress lib e with
    | .error err => .error err
    | .ok (address, privKey, pubKey) =>
      .ok { address := address, privateKey := privKey, publicKey := pubKey,
            mnemonic := "", derivationPath := "" }

/-- The shared mutable runtime state of a `Generator` (part_003): the
result slice and stats counters, the stop flag (`stopped atomic.Bool`), and
the number of times `close(g.stopCh)` has executed (closing a Go channel
twice panics, so `closeCount ≤ 1` is the no-panic condition).  The `uint64`
counters are modelled as `Nat`; their 2^64 wraparound is practically
unreachable and irrelevant to the claims here. -/
structure EngineState where
  results : List Result
  found : Nat
  attempts : Nat
  stopped : Bool
  closeCount : Nat
deriving DecidableEq, Repr

/-- The state a fresh generator starts in (`NewGenerator` plus the zero
`Stats`): no results, zero counters, stop channel open. -/
def initEngineState : EngineState :=
  { results := [], found := 0, attempts := 0, stopped := false, closeCount := 0 }

/-- Mirrors `Stop` (part_003 lines 212-216): `g.stopped.Swap(true)` is an
atomic swap; only the caller that saw `false` closes the channel.  The whole
function is one atomic action thanks to the swap. -/
def stopOnce (s : EngineState) : EngineState :=
  if s.stopped then s
  else { s with stopped := true, closeCount := s.closeCount + 1 }

/-- The locked append of the worker (part_003 lines 270-275): under the
mutex, re-check `len(g.results) < g.count`, and only then append the result
and atomically increment the found counter. -/
def tryAppend (g : Generator) (s : EngineState) (r : Result) : EngineState :=
  if (s.results.length : Int) < g.count then
    { s with results := s.results ++ [r], found := s.found + 1 }
  else s

/-- Mirrors `GetResults` (part_003 lines 197-201): under the mutex, return a
copy of the result slice (value-equal to the slice itself). -/
def GetResults (s : EngineState) : List Result := s.results

/-- The atomic actions through which any worker or external caller mutates
the shared state, each corresponding to one lock-protected or atomic region
of the code; an arbitrary interleaving of any number of workers plus
external `Stop` callers is a sequence of these actions.  `Der` is the set of
results the configured derivation strategy can produce (the worker only
appends results it has just derived).
* `capStop`: a worker holds the lock, sees `len(results) ≥ count`, and calls
  `Stop` (lines 233-238);
* `extStop`: any caller invokes `Stop` (lines 212-216);
* `appendMatch`: a worker appends a derived result whose address passed
  `isMatch`, guarded again by capacity under the lock (lines 258-275);
* `incAttempt`: the atomic attempts increment ending an iteration
  (line 278). -/
inductive Step (g : Generator) (Der : Result → Prop) : EngineState → EngineState → Prop
  | capStop (s : EngineState) (h : g.count ≤ (s.results.length : Int)) :
      Step g Der s (stopOnce s)
  | extStop (s : EngineState) : Step g Der s (stopOnce s)
  | appendMatch (s : EngineState) (r : Result) (hd : Der r)
      (hm : g.isMatch r.address = true) : Step g Der s (tryAppend g s r)
  | incAttempt (s : EngineState) : Step g Der s { s with attempts := s.attempts + 1 }

/-- States the engine can be in at any point of a run: reachable from the
fresh state by interleaved atomic actions. -/
def Reachable (g : Generator) (Der : Result → Prop) (s : EngineState) : Prop :=
  Relation.ReflTransGen (Step g Der) initEngineState s

/-- The results the configured strategy can produce with some draw of
randomness: the derivation oracle instantiating `Der` for a concrete
generator and library. -/
def Derivable (g : Generator) (lib : CryptoLib) (r : Result) : Prop :=
  ∃ e : Entropy, deriveResult g lib e = Except.ok r

/-- The three arms of the worker's `select` (part_003 lines 223-232): the
stop-channel receive (ready only once the channel is closed), a ticker tick
delivering a progress report, and the default arm that does one
check-derive-match-record iteration. -/
inductive Branch
  | stopCh
  | tick
  | dflt
deriving DecidableEq, Repr

/-- One iteration of the worker loop (part_003 lines 223-279), given which
`select` arm the scheduler picked and the entropy for this attempt; returns
the new state and whether the worker exited its loop.  The `stopCh` arm can
only fire once the channel is closed; a schedule that names it while the
engine is running is simply a skipped turn.  In the default arm: the locked
capacity check (stop and exit when full), the `stopped.Load` check (exit),
then one derivation — on error `continue`, skipping even the attempts
increment; on success, record the result if it matches (capacity re-checked
inside `tryAppend`) and increment attempts. -/
def workerStep (g : Generator) (lib : CryptoLib) (s : EngineState) :
    Branch → Entropy → EngineState × Bool
  | .stopCh, _ => if s.stopped then (s, true) else (s, false)
  | .tick, _ => (s, false)
  | .dflt, e =>
    if g.count ≤ (s.results.length : Int) then (stopOnce s, true)
    else if s.stopped then (s, true)
    else
      match deriveResult g lib e with
      | .error _ => (s, false)
      | .ok r =>
        let s1 := if g.isMatch r.address then tryAppend g s r else s
        ({ s1 with attempts := s1.attempts + 1 }, false)

/-- A worker's loop run against a finite schedule of scheduler choices:
iterate `workerStep` until it reports an exit; the Bool of the final pair
tells whether the loop exited within the schedule. -/
def workerRun (g : Generator) (lib : CryptoLib) :
    EngineState → List (Branch × Entropy) → EngineState × Bool
  | s, [] => (s, false)
  | s, (b, e) :: rest =>
    match workerStep g lib s b e with
    | (s1, true) => (s1, true)
    | (s1, false) => workerRun g lib s1 rest

/-- The value `Generate` hands back to its caller (part_003 lines 284-316):
the function's only return statement is `return nil`, unconditionally, after
`wg.Wait()`; there is no error path, and no check of its `threads`
argument. -/
def GenerateRet (_g : Generator) (_threads : Int) : Except String Unit :=
  Except.ok ()

/-- Modelled from the spec: the CLI configuration (`internal/config`).  The
`Config` file variant present in src (`src/unnamed/part_000`) lacks the
mnemonic-related fields, yet `main` (`src/unnamed/part_002`) reads
`cfg.UseMnemonic`, `cfg.Mnemonic`, `cfg.AccountNumber` and
`cfg.AddressIndex`, so the config file that declares those fields is missing
from src; following the spec (§4.1, §6: optional mnemonic mode, optional
supplied mnemonic, and account number / address index read from
configuration, `uint32` CLI options defaulting to 0), they are added here to
the fields of part_000. -/
structure Config where
  pattern : String
  position : String
  threads : Int
  caseSensitive : Bool
  outputFile : String
  format : String
  quiet : Bool
  count : Int
  stats : Bool
  useMnemonic : Bool
  mnemonic : String
  accountNumber : Nat
  addressIndex : Nat
deriving DecidableEq, Repr

/-- The generator the CLI constructs (part_002 line 125):
`vanity.NewGenerator(cfg.Pattern, cfg.Position, cfg.CaseSensitive,
cfg.Count, cfg.UseMnemonic, cfg.Mnemonic)` — note that `cfg.AccountNumber`
and `cfg.AddressIndex` are not passed. -/
def generatorOfConfig (cfg : Config) : Generator :=
  { pattern := cfg.pattern, position := cfg.position,
    caseSensitive := cfg.caseSensitive, count := cfg.count,
    useMnemonic := cfg.useMnemonic, mnemonic := cfg.mnemonic }

/-- Decimal digits of a natural number, fuel-structured so that it reduces
inside the kernel (used only to state the spec-side path format). -/
def natDecimalAux : Nat → Nat → List Char
  | 0, _ => []
  | fuel + 1, n =>
    if n < 10 then [Char.ofNat (48 + n)]
    else natDecimalAux fuel (n / 10) ++ [Char.ofNat (48 + n % 10)]

/-- Decimal rendering of a natural number. -/
def natDecimal (n : Nat) : String := ⟨natDecimalAux (n + 1) n⟩

/-- Formalisation of claim C8's reading of the spec, for the refinement
comparison: the BIP-44 path built from the configured account number and
address index, `m/44'/118'/<account>'/0/<index>`. -/
def specPathOf (accountNumber addressIndex : Nat) : String :=
  "m/44\x27/118\x27/" ++ natDecimal accountNumber ++ "\x27/0/" ++ natDecimal addressIndex

/-- The fixed test-vector mnemonic of the spec and the repository's tests. -/
def fixedMnemonic : String :=
  "abandon abandon abandon abandon abandon abandon abandon abandon abandon abandon abandon about"

/-- The generator of the invalid-mnemonic scenario from the spec and the
repository's own test table: `NewGenerator("test", "end", false, 1, true,
"invalid mnemonic phrase")`. -/
def badGen : Generator :=
  { pattern := "test", position := "end", caseSensitive := false, count := 1,
    useMnemonic := true, mnemonic := "invalid mnemonic phrase" }

/-- A small concrete instantiation of the library record, used by the
witnesses to evaluate the embedded repository code on closed inputs: word
count decides mnemonic validity (both fixed vectors get the right verdict),
and the bech32 encoder returns `hrp ++ "1qqqq"`. -/
def demoLib : CryptoLib where
  newEntropy256 := fun e => .ok e
  newMnemonic := fun n => .ok ("word" ++ toString n)
  isMnemonicValid := fun m =>
    ((m.data.filter (fun c => c == ' ')).length + 1 == 12) ||
    ((m.data.filter (fun c => c == ' ')).length + 1 == 24)
  newSeed := fun _ _ => 0
  computeMastersFromSeed := fun s => (s, s)
  derivePrivateKeyForPath := fun m _ _ => .ok m
  genPrivKey := fun e => e
  pubKeyOf := fun k => k
  addressOf := fun k => k
  bech32ConvertAndEncode := fun hrp _ => .ok (hrp ++ "1qqqq")
  privKeyBytesHex := fun _ => "00"
  pubKeyJSON := fun _ => .ok "pub"

/-- The lowercase bech32 data alphabet. -/
def bech32Charset : List Char := "qpzry9x8gf2tvdw0s3jn54khce6mua7l".data

/-- An address of the shape every bech32 encoding with the "init" prefix
has: the literal "init1" followed only by characters of the lowercase
bech32 alphabet. -/
def isInitBech32 (addr : String) : Prop :=
  ∃ rest : List Char, addr.data = "init1".data ++ rest ∧ ∀ c ∈ rest, c ∈ bech32Charset

/-- The CLI configuration of the C8 scenario: mnemonic mode with the fixed
valid mnemonic supplied and a non-zero `--account` value. -/
def cexConfig : Config :=
  { pattern := "q", position := "end", threads := 1, caseSensitive := false,
    outputFile := "", format := "text", quiet := false, count := 1, stats := false,
    useMnemonic := true, mnemonic := fixedMnemonic, accountNumber := 5, addressIndex := 0 }

/-- The result `demoLib` derives for any generator supplied with the fixed
valid mnemonic. -/
def cexResult : Result :=
  { address := "init1qqqq", privateKey := "00", publicKey := "pub",
    mnemonic := fixedMnemonic, derivationPath := bip44Path }

/-- A generator in mnemonic mode with the fixed valid mnemonic supplied,
asking for two copies of a pattern the demo library's address matches. -/
def mnGen : Generator :=
  { pattern := "q", position := "end", caseSensitive := false, count := 2,
    useMnemonic := true, mnemonic := fixedMnemonic }

/-- A plain random-mode generator: pattern "a" at the end, case-insensitive,
one copy — the end-to-end scenario shape of the spec. -/
def simpleGen : Generator :=
  { pattern := "a", position := "end", caseSensitive := false, count := 1,
    useMnemonic := false, mnemonic := "" }

/-- A case-sensitive generator whose pattern contains an uppercase letter. -/
def upperGen : Generator :=
  { pattern := "A", position := "end", caseSensitive := true, count := 1,
    useMnemonic := false, mnemonic := "" }

/-- A concrete matching result for `simpleGen`, used in witness traces. -/
def sampleResult : Result :=
  { address := "init1a", privateKey := "k", publicKey := "p",
    mnemonic := "", derivationPath := "" }

/-- An engine state in which the stop signal has been fired once. -/
def stoppedState : EngineState :=
  { results := [], found := 0, attempts := 0, stopped := true, closeCount := 1 }

/-! Helper lemmas about the atomic actions. -/

theorem stopOnce_results (s : EngineState) : (stopOnce s).results = s.results := by
  unfold stopOnce; split <;> rfl

theorem stopOnce_stopped (s : EngineState) : (stopOnce s).stopped = true := by
  unfold stopOnce; split <;> simp_all

theorem stopOnce_of_stopped {s : EngineState} (h : s.stopped = true) : stopOnce s = s := by
  unfold stopOnce; rw [if_pos h]

theorem tryAppend_stopped (g : Generator) (s : EngineState) (r : Result) :
    (tryAppend g s r).stopped = s.stopped := by
  unfold tryAppend; split <;> rfl

theorem tryAppend_closeCount (g : Generator) (s : EngineState) (r : Result) :
    (tryAppend g s r).closeCount = s.closeCount := by
  unfold tryAppend; split <;> rfl

theorem mem_tryAppend {g : Generator} {s : EngineState} {r x : Result}
    (h : x ∈ (tryAppend g s r).results) : x ∈ s.results ∨ x = r := by
  unfold tryAppend at h
  split at h
  · rcases List.mem_append.mp h with h1 | h1
    · exact Or.inl h1
    · exact Or.inr (List.mem_singleton.mp h1)
  · exact Or.inl h

theorem reachable_length_bound {g : Generator} {Der : Result → Prop} {s : EngineState}
    (h : Reachable g Der s) (hc : 1 ≤ g.count) : (s.results.length : Int) ≤ g.count := by
  induction h with
  | refl => simp [initEngineState]; omega
  | tail _ hstep ih =>
    cases hstep with
    | capStop h1 => rw [stopOnce_results]; exact ih
    | extStop => rw [stopOnce_results]; exact ih
    | appendMatch r hd hm =>
      unfold tryAppend
      split
      · rename_i hlt
        simp only [List.length_append, List.length_cons, List.length_nil]
        push_cast
        omega
      · exact ih
    | incAttempt => exact ih

theorem reachable_mem {g : Generator} {Der : Result → Prop} {s : EngineState}
    (h : Reachable g Der s) :
    ∀ r ∈ s.results, Der r ∧ g.isMatch r.address = true := by
  induction h with
  | refl => simp [initEngineState]
  | tail _ hstep ih =>
    cases hstep with
    | capStop h1 => rw [stopOnce_results]; exact ih
    | extStop => rw [stopOnce_results]; exact ih
    | appendMatch r hd hm =>
      intro x hx
      rcases mem_tryAppend hx with h1 | h1
      · exact ih x h1
      · subst h1; exact ⟨hd, hm⟩
    | incAttempt => exact ih

theorem reachable_results_eq_nil {g : Generator} {Der : Result → Prop} {s : EngineState}
    (hno : ∀ r, Der r → g.isMatch r.address = false)
    (h : Reachable g Der s) : s.results = [] := by
  apply List.eq_nil_iff_forall_not_mem.mpr
  intro r hr
  rcases reachable_mem h r hr with ⟨hd, hm⟩
  rw [hno r hd] at hm
  exact Bool.false_ne_true hm

theorem closeCount_step {g : Generator} {Der : Result → Prop} {s s1 : EngineState}
    (hstep : Step g Der s s1)
    (ih : s.closeCount ≤ 1 ∧ (s.stopped = false → s.closeCount = 0)) :
    s1.closeCount ≤ 1 ∧ (s1.stopped = false → s1.closeCount = 0) := by
  cases hstep with
  | capStop h1 =>
    unfold stopOnce
    split
    · exact ih
    · rename_i hns
      have h0 : s.closeCount = 0 := ih.2 (by revert hns; cases s.stopped <;> simp)
      simp [h0]
  | extStop =>
    unfold stopOnce
    split
    · exact ih
    · rename_i hns
      have h0 : s.closeCount = 0 := ih.2 (by revert hns; cases s.stopped <;> simp)
      simp [h0]
  | appendMatch r hd hm =>
    unfold tryAppend
    split
    · exact ih
    · exact ih
  | incAttempt => exact ih

theorem reachable_closeCount {g : Generator} {Der : Result → Prop} {s : EngineState}
    (h : Reachable g Der s) :
    s.closeCount ≤ 1 ∧ (s.stopped = false → s.closeCount = 0) := by
  induction h with
  | refl => simp [initEngineState]
  | tail _ hstep ih => exact closeCount_step hstep ih

theorem step_stopped_mono {g : Generator} {Der : Result → Prop} {s s1 : EngineState}
    (hstep : Step g Der s s1) (h : s.stopped = true) : s1.stopped = true := by
  cases hstep with
  | capStop h2 => exact stopOnce_stopped s
  | extStop => exact stopOnce_stopped s
  | appendMatch r hd hm => rw [tryAppend_stopped]; exact h
  | incAttempt => exact h

/-! Helper lemmas about the derivation functions. -/

theorem generateAddressFromMnemonic_entropy_free (g : Generator) (lib : CryptoLib)
    (h : g.mnemonic ≠ "") (e1 e2 : Entropy) :
    generateAddressFromMnemonic g lib e1 = generateAddressFromMnemonic g lib e2 := by
  unfold generateAddressFromMnemonic
  rw [if_pos h]
  rw [if_pos h]

theorem deriveResult_entropy_free (g : Generator) (lib : CryptoLib)
    (hm : g.useMnemonic = true) (h : g.mnemonic ≠ "") (e : Entropy) :
    deriveResult g lib e = deriveResult g lib 0 := by
  unfold deriveResult
  rw [hm]
  simp only [if_true]
  rw [generateAddressFromMnemonic_entropy_free g lib h e 0]

theorem initChars_not_upper : ∀ c ∈ "init1".data, c.isUpper = false := by decide

theorem bech32Charset_not_upper : ∀ c ∈ bech32Charset, c.isUpper = false := by decide

theorem isInitBech32_no_upper {a : String} (h : isInitBech32 a) :
    ∀ c ∈ a.data, c.isUpper = false := by
  rcases h with ⟨rest, hdata, hrest⟩
  intro c hc
  rw [hdata] at hc
  rcases List.mem_append.mp hc with h1 | h1
  · exact initChars_not_upper c h1
  · exact bech32Charset_not_upper c (hrest c h1)

theorem isMatch_false_of_no_upper {g : Generator} {c : Char}
    (hcase : g.caseSensitive = true) (hc : c ∈ g.pattern.data) (hu : c.isUpper = true)
    {a : String} (ha : ∀ d ∈ a.data, d.isUpper = false) :
    g.isMatch a = false := by
  have hca : c ∉ a.data := fun hmem => by
    rw [ha c hmem] at hu; exact Bool.false_ne_true hu
  unfold Generator.isMatch
  simp only [hcase, Bool.not_true, Bool.false_eq_true, if_false]
  unfold positionMatch
  split
  · cases hb : hasPrefixGo a ("init1" ++ g.pattern)
    · rfl
    · exfalso
      unfold hasPrefixGo at hb
      simp only [List.isPrefixOf_iff_prefix] at hb
      exact hca (hb.subset (by rw [String.data_append]; exact List.mem_append_right _ hc))
  · cases hb : hasSuffixGo a g.pattern
    · rfl
    · exfalso
      unfold hasSuffixGo at hb
      simp only [List.isSuffixOf_iff_suffix] at hb
      exact hca (hb.subset hc)
  · cases hb : containsGo a g.pattern
    · rfl
    · exfalso
      unfold containsGo at hb
      simp only [decide_eq_true_eq] at hb
      exact hca (hb.subset hc)
  · rfl

theorem generateAddress_ok_bech32 {lib : CryptoLib} {e : Entropy} {a p q : String}
    (hlib : ∀ d a0, lib.bech32ConvertAndEncode "init" d = Except.ok a0 → isInitBech32 a0)
    (hok : generateAddress lib e = Except.ok (a, p, q)) : isInitBech32 a := by
  simp only [generateAddress] at hok
  split at hok
  · simp at hok
  · rename_i address hb
    split at hok
    · simp at hok
    · simp only [Except.ok.injEq, Prod.mk.injEq] at hok
      obtain ⟨h1, h2, h3⟩ := hok
      subst h1
      exact hlib _ _ hb

theorem deriveResult_random {g : Generator} {lib : CryptoLib} {e : Entropy} {r : Result}
    (hm : g.useMnemonic = false) (hok : deriveResult g lib e = Except.ok r) :
    ∃ p q, generateAddress lib e = Except.ok (r.address, p, q) := by
  unfold deriveResult at hok
  rw [hm] at hok
  simp only [Bool.false_eq_true, if_false] at hok
  split at hok
  · simp at hok
  · rename_i a0 p0 q0 heq
    simp only [Except.ok.injEq] at hok
    subst hok
    exact ⟨p0, q0, heq⟩

theorem generateAddressFromMnemonic_path {g : Generator} {lib : CryptoLib} {e : Entropy}
    {a p q mn pth : String}
    (h : generateAddressFromMnemonic g lib e = Except.ok (a, p, q, mn, pth)) :
    pth = bip44Path := by
  simp only [generateAddressFromMnemonic] at h
  repeat' split at h
  all_goals simp_all

theorem deriveResult_mnemonic_path {g : Generator} {lib : CryptoLib} {e : Entropy} {r : Result}
    (hm : g.useMnemonic = true) (hok : deriveResult g lib e = Except.ok r) :
    r.derivationPath = bip44Path := by
  unfold deriveResult at hok
  rw [hm] at hok
  simp only [if_true] at hok
  split at hok
  · simp at hok
  · rename_i a0 p0 q0 mn0 pth0 heq
    simp only [Except.ok.injEq] at hok
    subst hok
    exact generateAddressFromMnemonic_path heq

/-! Claim theorems. -/

/-- C2: at every reachable point of a search with `targetCount ≥ 1`, the
result store holds at most `targetCount` entries and `GetResults` returns at
most `targetCount` entries, for every derivation oracle — hence for every
thread count and every pattern; the capacity re-check under the result-store
lock (`tryAppend`) preserves the bound at each atomic action. -/
theorem C2_results_never_exceed_count :
    ∀ (g : Generator) (Der : Result → Prop) (s : EngineState),
      Reachable g Der s → 1 ≤ g.count →
      ((GetResults s).length : Int) ≤ g.count := by
  intro g Der s h hc
  exact reachable_length_bound h hc

/-- Witness for C2 at a concrete generator and the initial state. -/
theorem C2_results_never_exceed_count_witness :
    (1 : Int) ≤ simpleGen.count ∧
    ((GetResults initEngineState).length : Int) ≤ simpleGen.count :=
  ⟨by decide,
   C2_results_never_exceed_count simpleGen (fun _ => True) initEngineState
     Relation.ReflTransGen.refl (by decide)⟩

/-- C3: every result ever placed in the store satisfies the matcher for the
generator's pattern, position and case flag: along every reachable execution,
each entry of `GetResults` has a matching address (the worker only appends
after `isMatch`, and the configuration is immutable). -/
theorem C3_results_all_match :
    ∀ (g : Generator) (Der : Result → Prop) (s : EngineState),
      Reachable g Der s → ∀ r ∈ GetResults s, g.isMatch r.address = true := by
  intro g Der s h r hr
  exact (reachable_mem h r hr).2

/-- Witness for C3 on a one-append execution trace. -/
theorem C3_results_all_match_witness :
    Reachable simpleGen (fun r => r = sampleResult)
      (tryAppend simpleGen initEngineState sampleResult) ∧
    ∀ r ∈ GetResults (tryAppend simpleGen initEngineState sampleResult),
      simpleGen.isMatch r.address = true :=
  ⟨Relation.ReflTransGen.tail Relation.ReflTransGen.refl
     (Step.appendMatch initEngineState sampleResult rfl (by decide)),
   C3_results_all_match simpleGen (fun r => r = sampleResult) _
     (Relation.ReflTransGen.tail Relation.ReflTransGen.refl
       (Step.appendMatch initEngineState sampleResult rfl (by decide)))⟩

/-- C4: the matcher is a pure function that lowercases both the address and
the pattern when `caseSensitive` is false, and it satisfies the six fixed
vectors (each built exactly as the repository's tests build it:
`NewGenerator(pattern, position, caseSensitive, 1, false, "")`). -/
theorem C4_matcher_lowercases_and_vectors :
    (∀ (g : Generator) (address : String), g.caseSensitive = false →
      g.isMatch address =
        positionMatch g.position (toLowerGo g.pattern) (toLowerGo address)) ∧
    (Generator.mk "test" "end" false 1 false "").isMatch "init1abctest" = true ∧
    (Generator.mk "Test" "end" true 1 false "").isMatch "init1abcTest" = true ∧
    (Generator.mk "Test" "end" true 1 false "").isMatch "init1abctest" = false ∧
    (Generator.mk "test" "any" false 1 false "").isMatch "init1abctestxyz" = true ∧
    (Generator.mk "test" "start" false 1 false "").isMatch "init1testabc" = true ∧
    (Generator.mk "test" "end" false 1 false "").isMatch "init1abcxyz" = false := by
  refine ⟨?_, by decide, by decide, by decide, by decide, by decide, by decide⟩
  intro g address h
  unfold Generator.isMatch
  rw [h]
  rfl

/-- Witness for C4's case-insensitive normalisation at a concrete input. -/
theorem C4_matcher_lowercases_and_vectors_witness :
    simpleGen.caseSensitive = false ∧
    simpleGen.isMatch "init1A" =
      positionMatch simpleGen.position (toLowerGo simpleGen.pattern) (toLowerGo "init1A") :=
  ⟨rfl, C4_matcher_lowercases_and_vectors.1 simpleGen "init1A" rfl⟩

/-- C5: `Stop` is idempotent — a second application changes nothing; any
positive number of sequential (equivalently, atomically serialised
concurrent) calls from the fresh state equals a single call; and along every
reachable execution the stop channel has been closed at most once, so no
call panics on a double close — the atomic swap guards the close. -/
theorem C5_stop_idempotent :
    (∀ s : EngineState, stopOnce (stopOnce s) = stopOnce s) ∧
    (∀ n : Nat, 1 ≤ n → stopOnce^[n] initEngineState = stopOnce initEngineState) ∧
    (∀ (g : Generator) (Der : Result → Prop) (s : EngineState),
      Reachable g Der s → s.closeCount ≤ 1) := by
  have hidem : ∀ s : EngineState, stopOnce (stopOnce s) = stopOnce s :=
    fun s => stopOnce_of_stopped (stopOnce_stopped s)
  refine ⟨hidem, ?_, ?_⟩
  · have hiter : ∀ m : Nat, stopOnce^[m + 1] initEngineState = stopOnce initEngineState := by
      intro m
      induction m with
      | zero => rfl
      | succ k ih =>
        rw [Function.iterate_succ_apply']
        rw [ih]
        exact hidem _
    intro n hn
    obtain ⟨m, rfl⟩ : ∃ m, n = m + 1 := ⟨n - 1, by omega⟩
    exact hiter m
  · intro g Der s h
    exact (reachable_closeCount h).1

/-- Witness for C5: three stops equal one, and the initial state has not
closed the channel more than once. -/
theorem C5_stop_idempotent_witness :
    stopOnce^[3] initEngineState = stopOnce initEngineState ∧
    initEngineState.closeCount ≤ 1 :=
  ⟨C5_stop_idempotent.2.1 3 (by decide),
   C5_stop_idempotent.2.2 simpleGen (fun _ => True) initEngineState
     Relation.ReflTransGen.refl⟩

/-- C6: once the stop flag is set — by `Stop()` or by a worker that observed
a full store — every atomic action keeps it set, and a worker entering its
loop in a stopped state exits at its first non-tick scheduler turn with the
state untouched: no further derive/match iteration runs, so `wg.Wait` in
`Generate` returns instead of hanging (the requirement that a non-tick turn
occurs is exactly the 100 ms ticker not being selected forever). -/
theorem C6_stop_terminates_workers :
    (∀ (g : Generator) (Der : Result → Prop) (s s1 : EngineState),
      Step g Der s s1 → s.stopped = true → s1.stopped = true) ∧
    (∀ (g : Generator) (lib : CryptoLib) (s : EngineState)
      (sched : List (Branch × Entropy)), s.stopped = true →
      (∃ p ∈ sched, p.1 ≠ Branch.tick) →
      workerRun g lib s sched = (s, true)) := by
  constructor
  · intro g Der s s1 hstep h
    exact step_stopped_mono hstep h
  · intro g lib s sched hstop hex
    induction sched with
    | nil => simp at hex
    | cons p rest ih =>
      obtain ⟨b, e⟩ := p
      cases b with
      | stopCh => simp [workerRun, workerStep, hstop]
      | tick =>
        have hex1 : ∃ p ∈ rest, p.1 ≠ Branch.tick := by
          rcases hex with ⟨q, hq, hne⟩
          rcases List.mem_cons.mp hq with h1 | h1
          · subst h1; simp at hne
          · exact ⟨q, h1, hne⟩
        simpa [workerRun, workerStep] using ih hex1
      | dflt =>
        by_cases hcap : g.count ≤ (s.results.length : Int)
        · simp [workerRun, workerStep, hcap, stopOnce_of_stopped hstop]
        · simp [workerRun, workerStep, hcap, hstop]

/-- Witness for C6: a stopped worker exits on a tick-then-default schedule,
and an external stop action keeps the flag set. -/
theorem C6_stop_terminates_workers_witness :
    stoppedState.stopped = true ∧
    workerRun simpleGen demoLib stoppedState [(Branch.tick, 0), (Branch.dflt, 7)] =
      (stoppedState, true) ∧
    (stopOnce stoppedState).stopped = true :=
  ⟨rfl,
   C6_stop_terminates_workers.2 simpleGen demoLib stoppedState
     [(Branch.tick, 0), (Branch.dflt, 7)] rfl (by decide),
   C6_stop_terminates_workers.1 simpleGen (fun _ => True) stoppedState _
     (Step.extStop stoppedState) rfl⟩

/-- C7: with the fixed valid mnemonic supplied, HD derivation is a function
of the seed and derivation path only: two calls with arbitrary (and
different) randomness draws return the identical (address, private key hex,
public key, mnemonic, path) outcome — the entropy source is consumed only in
the generate-fresh-mnemonic branch, which a supplied mnemonic never takes. -/
theorem C7_hd_derivation_deterministic :
    ∀ (g : Generator) (lib : CryptoLib) (e1 e2 : Entropy),
      g.mnemonic = fixedMnemonic →
      generateAddressFromMnemonic g lib e1 = generateAddressFromMnemonic g lib e2 := by
  intro g lib e1 e2 h
  exact generateAddressFromMnemonic_entropy_free g lib (by rw [h]; decide) e1 e2

/-- Witness for C7 at the concrete library with two different draws. -/
theorem C7_hd_derivation_deterministic_witness :
    mnGen.mnemonic = fixedMnemonic ∧
    generateAddressFromMnemonic mnGen demoLib 0 = generateAddressFromMnemonic mnGen demoLib 99 :=
  ⟨rfl, C7_hd_derivation_deterministic mnGen demoLib 0 99 rfl⟩

/-- C1: evaluation of the embedded code at the claim's failing input.  The
claim (and spec §7) requires `Generate` to fail with a configuration-class
error for an invalid supplied mnemonic; the code instead swallows the error:
every derivation attempt of `badGen` fails with "invalid mnemonic provided",
the worker's `continue` neither exits nor even counts the attempt (its state
is returned unchanged), `Generate`'s only return statement is `nil`
regardless of the thread count, and the result store stays empty along every
reachable execution — the workers spin forever unless stopped externally. -/
theorem C1_invalid_mnemonic_swallowed :
    ∀ lib : CryptoLib, lib.isMnemonicValid badGen.mnemonic = false →
      (∀ e : Entropy, deriveResult badGen lib e = Except.error "invalid mnemonic provided") ∧
      (∀ (s : EngineState) (e : Entropy), s.stopped = false →
        (s.results.length : Int) < badGen.count →
        workerStep badGen lib s Branch.dflt e = (s, false)) ∧
      (∀ threads : Int, GenerateRet badGen threads = Except.ok ()) ∧
      (∀ s : EngineState, Reachable badGen (Derivable badGen lib) s →
        GetResults s = []) := by
  intro lib hlib
  have hderive : ∀ e : Entropy,
      deriveResult badGen lib e = Except.error "invalid mnemonic provided" := by
    intro e
    unfold deriveResult
    rw [show badGen.useMnemonic = true from rfl]
    simp only [if_true]
    unfold generateAddressFromMnemonic
    rw [if_pos (show badGen.mnemonic ≠ "" by decide)]
    rw [hlib]
    simp
  refine ⟨hderive, ?_, ?_, ?_⟩
  · intro s e hst hlen
    simp only [workerStep]
    rw [if_neg (not_le.mpr hlen)]
    rw [hst]
    simp only [Bool.false_eq_true, if_false]
    rw [hderive e]
  · intro threads
    rfl
  · intro s h
    have hno : ∀ r, Derivable badGen lib r → badGen.isMatch r.address = false := by
      rintro r ⟨e, hok⟩
      rw [hderive e] at hok
      exact absurd hok (by simp)
    exact reachable_results_eq_nil hno h

/-- Witness for C1's theorem at the concrete library instance. -/
theorem C1_invalid_mnemonic_swallowed_witness :
    demoLib.isMnemonicValid badGen.mnemonic = false ∧
    deriveResult badGen demoLib 0 = Except.error "invalid mnemonic provided" ∧
    GenerateRet badGen 4 = Except.ok () ∧
    GetResults initEngineState = [] :=
  ⟨by decide,
   (C1_invalid_mnemonic_swallowed demoLib (by decide)).1 0,
   (C1_invalid_mnemonic_swallowed demoLib (by decide)).2.2.1 4,
   (C1_invalid_mnemonic_swallowed demoLib (by decide)).2.2.2 initEngineState
     Relation.ReflTransGen.refl⟩

/-- C8 counterexample: a configuration in mnemonic mode with `--account 5`
still derives the constant path `m/44'/118'/0'/0/0` and not the path
`m/44'/118'/5'/0/0` built from the configured account number; the claim that
the path used for key derivation reflects the configured account number and
address index is false on the code. -/
theorem C8_counterexample_account_ignored :
    deriveResult (generatorOfConfig cexConfig) demoLib 0 = Except.ok cexResult ∧
    cexResult.derivationPath ≠ specPathOf cexConfig.accountNumber cexConfig.addressIndex := by
  constructor
  · rfl
  · decide

/-- C8 amended: every mnemonic-mode result carries the constant derivation
path `m/44'/118'/0'/0/0`; the configured account number and address index
never reach the generator (the CLI passes only pattern, position, case flag,
count, mnemonic flag and mnemonic text to `NewGenerator`), so the derived
path coincides with the configured components only in the default case
account = index = 0. -/
theorem C8_path_is_constant :
    (∀ (g : Generator) (lib : CryptoLib) (e : Entropy) (r : Result),
      g.useMnemonic = true → deriveResult g lib e = Except.ok r →
      r.derivationPath = bip44Path) ∧
    (∀ (cfg : Config) (a i : Nat),
      generatorOfConfig { cfg with accountNumber := a, addressIndex := i } =
        generatorOfConfig cfg) := by
  constructor
  · intro g lib e r hm hok
    exact deriveResult_mnemonic_path hm hok
  · intro cfg a i
    rfl

/-- Witness for C8's amended theorem at the counterexample configuration. -/
theorem C8_path_is_constant_witness :
    (generatorOfConfig cexConfig).useMnemonic = true ∧
    deriveResult (generatorOfConfig cexConfig) demoLib 0 = Except.ok cexResult ∧
    cexResult.derivationPath = bip44Path :=
  ⟨rfl, rfl,
   C8_path_is_constant.1 (generatorOfConfig cexConfig) demoLib 0 cexResult rfl rfl⟩

/-- Helper for the C9 witness: the demo library's bech32 encoder satisfies
the encoder contract assumed by C9. -/
theorem demoLib_bech32_ok :
    ∀ d a0, demoLib.bech32ConvertAndEncode "init" d = Except.ok a0 → isInitBech32 a0 := by
  intro d a0 h
  simp only [demoLib, Except.ok.injEq] at h
  subst h
  exact ⟨"qqqq".data, by decide, by decide⟩

/-- C9: assuming the bech32 encoder's contract — every successful encoding
with the "init" prefix is "init1" followed by lowercase bech32-alphabet
characters — every address the random-key derivation produces has that shape
(so no uppercase letter occurs in it); and for every case-sensitive
generator whose pattern contains an uppercase letter, the matcher rejects
every such address, hence in random-key mode no result is ever appended
along any reachable execution. -/
theorem C9_lowercase_addresses_never_match_upper :
    ∀ lib : CryptoLib,
      (∀ d a0, lib.bech32ConvertAndEncode "init" d = Except.ok a0 → isInitBech32 a0) →
      (∀ (e : Entropy) (a p q : String),
        generateAddress lib e = Except.ok (a, p, q) →
        isInitBech32 a ∧ ∀ c ∈ a.data, c.isUpper = false) ∧
      (∀ g : Generator, g.caseSensitive = true →
        (∃ c ∈ g.pattern.data, c.isUpper = true) →
        (∀ a : String, (∀ d ∈ a.data, d.isUpper = false) → g.isMatch a = false) ∧
        (g.useMnemonic = false →
          ∀ s : EngineState, Reachable g (Derivable g lib) s → GetResults s = [])) := by
  intro lib hlib
  constructor
  · intro e a p q hok
    have h1 := generateAddress_ok_bech32 hlib hok
    exact ⟨h1, isInitBech32_no_upper h1⟩
  · intro g hcase hex
    obtain ⟨c, hc, hu⟩ := hex
    constructor
    · intro a ha
      exact isMatch_false_of_no_upper hcase hc hu ha
    · intro hm s hreach
      have hno : ∀ r, Derivable g lib r → g.isMatch r.address = false := by
        rintro r ⟨e, hok⟩
        obtain ⟨p, q, hga⟩ := deriveResult_random hm hok
        exact isMatch_false_of_no_upper hcase hc hu
          (isInitBech32_no_upper (generateAddress_ok_bech32 hlib hga))
      exact reachable_results_eq_nil hno hreach

/-- Witness for C9 at the concrete library: the generated address is
lowercase bech32, the uppercase case-sensitive pattern never matches it, and
the store stays empty. -/
theorem C9_lowercase_addresses_never_match_upper_witness :
    isInitBech32 "init1qqqq" ∧
    upperGen.caseSensitive = true ∧
    upperGen.isMatch "init1qqqq" = false ∧
    GetResults initEngineState = [] :=
  ⟨((C9_lowercase_addresses_never_match_upper demoLib demoLib_bech32_ok).1 0
      "init1qqqq" "00" "pub" rfl).1,
   rfl,
   ((C9_lowercase_addresses_never_match_upper demoLib demoLib_bech32_ok).2 upperGen
      rfl (by decide)).1 "init1qqqq" (by decide),
   ((C9_lowercase_addresses_never_match_upper demoLib demoLib_bech32_ok).2 upperGen
      rfl (by decide)).2 rfl initEngineState Relation.ReflTransGen.refl⟩

/-- C10: with a supplied (non-empty, valid) mnemonic, every derivation
attempt returns the same outcome as every other, independent of the
randomness draw; hence when that outcome is the result `r0`: every stored
result equals `r0`, a completed search (store length = targetCount) holds
exactly `targetCount` copies of the one keypair, and if `r0`'s address does
not match the pattern the store stays empty along every reachable
execution. -/
theorem C10_supplied_mnemonic_single_keypair :
    ∀ (g : Generator) (lib : CryptoLib) (r0 : Result),
      g.useMnemonic = true → g.mnemonic ≠ "" →
      (∀ e : Entropy, deriveResult g lib e = deriveResult g lib 0) ∧
      (deriveResult g lib 0 = Except.ok r0 →
        ∀ s : EngineState, Reachable g (Derivable g lib) s →
          (∀ r ∈ GetResults s, r = r0) ∧
          ((GetResults s).length = g.count.toNat →
            GetResults s = List.replicate g.count.toNat r0) ∧
          (g.isMatch r0.address = false → GetResults s = [])) := by
  intro g lib r0 hm hne
  have hconst : ∀ e : Entropy, deriveResult g lib e = deriveResult g lib 0 :=
    fun e => deriveResult_entropy_free g lib hm hne e
  refine ⟨hconst, ?_⟩
  intro hok s hreach
  have huniq : ∀ r, Derivable g lib r → r = r0 := by
    rintro r ⟨e, he⟩
    rw [hconst e, hok] at he
    exact (Except.ok.inj he).symm
  have hall : ∀ r ∈ GetResults s, r = r0 :=
    fun r hr => huniq r (reachable_mem hreach r hr).1
  refine ⟨hall, ?_, ?_⟩
  · intro hlen
    have hrep := List.eq_replicate_of_mem hall
    rw [hlen] at hrep
    exact hrep
  · intro hmf
    have hno : ∀ r, Derivable g lib r → g.isMatch r.address = false := by
      intro r hd
      rw [huniq r hd]
      exact hmf
    exact reachable_results_eq_nil hno hreach

/-- Witness for C10 at the concrete library: two draws derive identically,
and on the initial state every stored result (vacuously) equals the one
derived keypair. -/
theorem C10_supplied_mnemonic_single_keypair_witness :
    mnGen.useMnemonic = true ∧
    mnGen.mnemonic ≠ "" ∧
    deriveResult mnGen demoLib 7 = deriveResult mnGen demoLib 0 ∧
    (∀ r ∈ GetResults initEngineState, r = cexResult) :=
  ⟨rfl, by decide,
   (C10_supplied_mnemonic_single_keypair mnGen demoLib cexResult rfl (by decide)).1 7,
   ((C10_supplied_mnemonic_single_keypair mnGen demoLib cexResult rfl (by decide)).2 rfl
      initEngineState Relation.ReflTransGen.refl).1⟩

end InitiaVanity
